import Mathlib

/-!
Verification of the GitHub repository monitor plugin (src/plugin.py).

The development shallowly embeds the two core routines:

* `monitor_loop` (per-target diff step, lines 195-228): given the stored
  last-seen sha for a repository key and the fetched commit list (newest
  first), decide the new stored sha and the list of commits to notify
  (oldest first).
* `broadcast_notification` (lines 233-317): per-subscriber delivery of the
  base message and the optional AI commentary, modelled as an event trace.

Machine-external effects (HTTP fetch, stream resolution, message delivery,
LLM generation, logging) are modelled as explicit data: the fetch outcome is
a `FetchResult`, the delivery environment is a `DispatchEnv` of response
functions, and logging/sending are events in a trace list.
-/

/-- A revision record as consumed by the plugin: `commit['sha']`,
`commit['commit']['author']['name']`, `commit['commit']['message']`. -/
structure Commit where
  sha : String
  authorName : String
  message : String
deriving DecidableEq, Repr, Inhabited

/-- Outcome of `get_latest_commits` as seen at line 196 of the loop:
`unavailable` models `None` (error statuses and exceptions), `notAList`
models a JSON body that is not a list, `ok l` a parsed list (possibly
empty). Line 196 `if not commits or not isinstance(commits, list) or
len(commits) == 0: continue` skips the first two and the empty list. -/
inductive FetchResult where
  | unavailable : FetchResult
  | notAList : FetchResult
  | ok : List Commit → FetchResult
deriving DecidableEq, Repr

/-- Lines 210-215: scan `commits` from index 0, breaking at the first
record whose sha equals `lastSha`; the records strictly before the break
point are collected in fetch order (newest first). -/
def collectNew (lastSha : String) : List Commit → List Commit
  | [] => []
  | c :: rest => if c.sha = lastSha then [] else c :: collectNew lastSha rest

/-- Lines 196-224 of `monitor_loop`, for one repository key: from the
stored sha (`self.repo_states.get(repo_key)`) and the fetch outcome,
compute the stored sha after the cycle and the list of commits passed to
`broadcast_notification`, in delivery order (the python reverses
`new_items`, so delivery is oldest first). -/
def diffStep (stored : Option String) (fetch : FetchResult) :
    Option String × List Commit :=
  match fetch with
  | .unavailable => (stored, [])
  | .notAList => (stored, [])
  | .ok [] => (stored, [])
  | .ok (c0 :: rest) =>
    let currentLatest := c0.sha
    match stored with
    | none =>
      -- line 201-204: first sight, initialize silently
      (some currentLatest, [])
    | some lastSha =>
      if currentLatest ≠ lastSha then
        -- lines 206-224: collect new items, commit state, then notify
        (some currentLatest, (collectNew lastSha (c0 :: rest)).reverse)
      else
        -- line 225-226: no new commit
        (stored, [])

/-- Observable events of one per-target cycle, in program order:
the assignment `self.repo_states[repo_key] = current_latest_sha` and each
`broadcast_notification(item, ...)` call. -/
inductive CycleEvent where
  | stateUpdate (sha : String)
  | notify (c : Commit)
deriving DecidableEq, Repr

/-- The per-target cycle of `monitor_loop` as an ordered event trace:
line 203 or line 219 emits `stateUpdate`, the loop at line 222 emits one
`notify` per delivered commit, oldest first. -/
def cycleTrace (stored : Option String) (fetch : FetchResult) :
    List CycleEvent :=
  match fetch with
  | .unavailable => []
  | .notAList => []
  | .ok [] => []
  | .ok (c0 :: rest) =>
    match stored with
    | none => [.stateUpdate c0.sha]
    | some lastSha =>
      if c0.sha ≠ lastSha then
        .stateUpdate c0.sha ::
          ((collectNew lastSha (c0 :: rest)).reverse.map .notify)
      else []

/-- A subscriber entry of `monitor.subscribers` as read at lines 254-255:
`group_id = sub.get("group_id")` (the empty string models a missing key or
an empty value, both falsy in `if not group_id`), `platform` with its
default `"qq"` already applied. -/
structure Subscriber where
  group_id : String
  platform : String
deriving DecidableEq, Repr, Inhabited

/-- Outcome of the `generator_api.rewrite_reply` call at line 292:
`raises` models an exception inside the `try` block; `returns success
response` models a normal return, where `response = none` is a falsy
`llm_response` and `response = some content` a truthy one with that
content. -/
inductive GenOutcome where
  | raises : GenOutcome
  | returns (success : Bool) (response : Option String) : GenOutcome
deriving DecidableEq, Repr

/-- The external collaborators of `broadcast_notification`, as response
functions: the boolean configuration store behind `get_config`, the stream
resolver `chat_api.get_stream_by_group_id` (argument order: group id then
platform, result: the `stream_id` or none), the delivery sink
`send_api.text_to_stream` (argument order: text then stream id; `false`
models a raised exception), and the commentary generator (argument order:
stream id then raw reply text). -/
structure DispatchEnv where
  cfg : String → Option Bool
  resolveStream : String → String → Option String
  deliverOk : String → String → Bool
  gen : String → String → GenOutcome

/-- `self.get_config(key, default)` for a boolean key. -/
def getConfigBool (cfg : String → Option Bool) (key : String)
    (dflt : Bool) : Bool :=
  (cfg key).getD dflt

/-- The base message rendered at lines 239-245. -/
def renderBaseMsg (c : Commit) (repoName : String) : String :=
  "📢 [" ++ repoName ++ "] 检测到新提交！\n" ++
  "Commit sha: " ++ c.sha.take 7 ++ "\n" ++
  "提交者: " ++ c.authorName ++ "\n" ++
  "简介:\n" ++ c.message

/-- The commentary prompt context built at lines 283-288. -/
def renderExtraContext (c : Commit) (repoName : String) : String :=
  "检测到 GitHub 仓库 " ++ repoName ++ " 有新的代码提交。\n" ++
  "提交者: " ++ c.authorName ++ "\n" ++
  "提交信息:\n" ++ c.message

/-- Observable events of `broadcast_notification`, in program order: the
warning log at line 263, the base-message send attempt at line 267, its
success log (line 273) or failure log (line 275), the generation failure
log at line 305, the second-message send attempt at line 310 and its
failure log at line 317. -/
inductive DispatchEvent where
  | warnNoStream (group_id : String)
  | baseSend (group_id : String) (text : String)
  | infoBroadcast (group_id : String)
  | baseSendError (group_id : String)
  | genError (group_id : String)
  | commentSend (group_id : String) (text : String)
  | commentSendError (group_id : String)
deriving DecidableEq, Repr

/-- Lines 277-307: compute `ai_comment` for one subscriber, together with
the log events of the generation block. `ai_comment` starts as `""`; when
`enable_ai` holds (line 248 reads the key `"monitor.enable_commentary"`
with default `True`), the generator is called and `ai_comment` becomes
`llm_response.content` only on `success and llm_response`; any exception is
caught and logged, leaving `ai_comment` empty. -/
def aiCommentStep (env : DispatchEnv) (groupId streamId ctx : String) :
    String × List DispatchEvent :=
  if getConfigBool env.cfg "monitor.enable_commentary" true then
    match env.gen streamId ctx with
    | .raises => ("", [.genError groupId])
    | .returns success response =>
      if success then
        match response with
        | some content => (content, [])
        | none => ("", [])
      else ("", [])
  else ("", [])

/-- Lines 253-317: the body of the subscriber loop for one subscriber, as
an event trace. An empty `group_id` is skipped (lines 257-258, no log); a
failed stream resolution logs a warning and skips (lines 262-264); then the
base message send is attempted with its exception caught (lines 266-275),
the commentary is computed (lines 277-307), and a non-empty comment is sent
as a second message with its exception caught (lines 308-317). -/
def processSub (env : DispatchEnv) (baseMsg ctx : String)
    (sub : Subscriber) : List DispatchEvent :=
  if sub.group_id = "" then []
  else
    match env.resolveStream sub.group_id sub.platform with
    | none => [.warnNoStream sub.group_id]
    | some sid =>
      let baseEvs := DispatchEvent.baseSend sub.group_id baseMsg ::
        (if env.deliverOk baseMsg sid then [.infoBroadcast sub.group_id]
         else [.baseSendError sub.group_id])
      let ai := aiCommentStep env sub.group_id sid ctx
      let commentEvs :=
        if ai.1 ≠ "" then
          DispatchEvent.commentSend sub.group_id ai.1 ::
            (if env.deliverOk ai.1 sid then []
             else [.commentSendError sub.group_id])
        else []
      baseEvs ++ ai.2 ++ commentEvs

/-- `broadcast_notification(commit_item, repo_name, branch)` as an event
trace over the subscriber list read at line 247: early return on an empty
list (lines 250-251), otherwise the loop at line 253 processes each
subscriber in order. -/
def broadcastTrace (env : DispatchEnv) (c : Commit) (repoName : String)
    (subs : List Subscriber) : List DispatchEvent :=
  if subs.isEmpty then []
  else subs.flatMap
    (processSub env (renderBaseMsg c repoName) (renderExtraContext c repoName))

/-- A concrete environment with three resolvable streams where delivery to
stream `"s2"` raises. -/
def env7 : DispatchEnv where
  cfg := fun _ => some false
  resolveStream := fun g _ =>
    if g = "g1" then some "s1"
    else if g = "g2" then some "s2"
    else if g = "g3" then some "s3"
    else none
  deliverOk := fun _ sid => !(sid == "s2")
  gen := fun _ _ => .raises

/-- A concrete configuration store holding `global.enable_commentary =
false` and nothing else — exactly what the plugin's own config schema
(lines 54-58) describes when the operator disables commentary. -/
def cfgGlobalOff : String → Option Bool :=
  fun key => if key = "global.enable_commentary" then some false else none

/-- A concrete environment over `cfgGlobalOff` whose generator raises, so
that a `genError` event witnesses that generation was attempted. -/
def envGlobalOff : DispatchEnv where
  cfg := cfgGlobalOff
  resolveStream := fun _ _ => some "s1"
  deliverOk := fun _ _ => true
  gen := fun _ _ => .raises

/-- A concrete environment where every stream resolves and delivery always
succeeds. -/
def envPlain : DispatchEnv where
  cfg := fun _ => some false
  resolveStream := fun _ _ => some "s1"
  deliverOk := fun _ _ => true
  gen := fun _ _ => .raises

/-- A concrete environment with commentary enabled by default (no stored
key) and a raising generator. -/
def envGenRaises : DispatchEnv where
  cfg := fun _ => none
  resolveStream := fun _ _ => some "s1"
  deliverOk := fun _ _ => true
  gen := fun _ _ => .raises

-- ### Helper lemmas

/-- If no element of the list carries `lastSha`, the scan collects the
whole list (the python loop never breaks). -/
theorem collectNew_of_not_mem (lastSha : String) (l : List Commit)
    (h : ∀ c ∈ l, c.sha ≠ lastSha) : collectNew lastSha l = l := by
  induction l with
  | nil => rfl
  | cons c rest ih =>
    have hc : c.sha ≠ lastSha := h c (List.mem_cons_self c rest)
    simp only [collectNew, if_neg hc]
    exact congrArg (c :: ·) (ih fun d hd => h d (List.mem_cons_of_mem c hd))

/-- If the baseline first occurs right after an initial segment `pre` free
of it, the scan collects exactly `pre`. -/
theorem collectNew_append (lastSha : String) (pre post : List Commit)
    (b : Commit) (hb : b.sha = lastSha) (hpre : ∀ c ∈ pre, c.sha ≠ lastSha) :
    collectNew lastSha (pre ++ b :: post) = pre := by
  induction pre with
  | nil => simp [collectNew, hb]
  | cons c rest ih =>
    have hc : c.sha ≠ lastSha := hpre c (List.mem_cons_self c rest)
    simp only [List.cons_append, collectNew, if_neg hc]
    exact congrArg (c :: ·)
      (ih fun d hd => hpre d (List.mem_cons_of_mem c hd))

/-- The early return at lines 250-251 coincides with the loop doing
nothing, so the trace is always the concatenation of the per-subscriber
traces. -/
theorem broadcastTrace_eq_flatMap (env : DispatchEnv) (c : Commit)
    (repoName : String) (subs : List Subscriber) :
    broadcastTrace env c repoName subs =
      subs.flatMap (processSub env (renderBaseMsg c repoName)
        (renderExtraContext c repoName)) := by
  cases subs with
  | nil => rfl
  | cons s l => rfl

/-- Normal form of `processSub` for a subscriber with a non-empty group id
and a resolvable stream. -/
theorem processSub_resolved (env : DispatchEnv) (baseMsg ctx : String)
    (sub : Subscriber) (sid : String) (hg : sub.group_id ≠ "")
    (hres : env.resolveStream sub.group_id sub.platform = some sid) :
    processSub env baseMsg ctx sub =
      (DispatchEvent.baseSend sub.group_id baseMsg ::
        (if env.deliverOk baseMsg sid then
          [DispatchEvent.infoBroadcast sub.group_id]
         else [DispatchEvent.baseSendError sub.group_id])) ++
      (aiCommentStep env sub.group_id sid ctx).2 ++
      (if (aiCommentStep env sub.group_id sid ctx).1 ≠ "" then
        DispatchEvent.commentSend sub.group_id
            (aiCommentStep env sub.group_id sid ctx).1 ::
          (if env.deliverOk (aiCommentStep env sub.group_id sid ctx).1 sid
           then [] else [DispatchEvent.commentSendError sub.group_id])
       else []) := by
  unfold processSub
  rw [if_neg hg, hres]

/-- The generation block logs at most the failure message: its event list
is `[]` or `[genError]`. -/
theorem aiCommentStep_snd_cases (env : DispatchEnv) (g sid ctx : String) :
    (aiCommentStep env g sid ctx).2 = [] ∨
    (aiCommentStep env g sid ctx).2 = [DispatchEvent.genError g] := by
  unfold aiCommentStep
  by_cases hflag : getConfigBool env.cfg "monitor.enable_commentary" true
  · rw [if_pos hflag]
    cases env.gen sid ctx with
    | raises => exact Or.inr rfl
    | returns success response =>
      cases success with
      | false => exact Or.inl rfl
      | true => cases response with
        | none => exact Or.inl rfl
        | some content => exact Or.inl rfl
  · rw [if_neg hflag]
    exact Or.inl rfl

/-- The computed `ai_comment` is non-empty exactly when the flag read at
line 248 is true and the generator returned success with a truthy response
carrying non-empty content. -/
theorem aiComment_ne_iff (env : DispatchEnv) (g sid ctx : String) :
    (aiCommentStep env g sid ctx).1 ≠ "" ↔
      (getConfigBool env.cfg "monitor.enable_commentary" true = true ∧
        ∃ t, t ≠ "" ∧ env.gen sid ctx = .returns true (some t)) := by
  unfold aiCommentStep
  by_cases hflag : getConfigBool env.cfg "monitor.enable_commentary" true
  · rw [if_pos hflag]
    cases hgen : env.gen sid ctx with
    | raises => simp [hflag, hgen]
    | returns success response =>
      cases success with
      | false => simp [hflag, hgen]
      | true =>
        cases response with
        | none => simp [hflag, hgen]
        | some content =>
          simp only [hflag, hgen, if_true, true_and, ne_eq,
            GenOutcome.returns.injEq, true_and, Option.some.injEq]
          constructor
          · intro h
            exact ⟨content, h, rfl⟩
          · rintro ⟨t, ht, heq⟩
            rw [heq]
            exact ht
  · rw [if_neg hflag]
    simp [hflag]

-- ### Claims

/-- C2: first sight is silent — with no stored state and a non-empty fetch,
the diff stores the newest sha, reports no new revisions, and the cycle
trace contains no notify event. -/
theorem firstSight_silent (c : Commit) (rest : List Commit) :
    diffStep none (.ok (c :: rest)) = (some c.sha, []) ∧
    cycleTrace none (.ok (c :: rest)) = [CycleEvent.stateUpdate c.sha] :=
  ⟨rfl, rfl⟩

/-- C4: an unavailable, non-list or empty fetch outcome leaves the stored
state unchanged and yields zero new revisions, for any prior state. -/
theorem emptyFetch_noop (stored : Option String) :
    diffStep stored .unavailable = (stored, []) ∧
    diffStep stored .notAList = (stored, []) ∧
    diffStep stored (.ok []) = (stored, []) :=
  ⟨rfl, rfl, rfl⟩

/-- C1: ordering — with stored baseline `B` first occurring after a
non-empty initial segment `pre` of the fetched list, the diff returns
exactly the records preceding `B`, oldest first, and stores the sha of the
newest fetched record (the head of the list). -/
theorem ordering_diff (B : String) (pre post : List Commit) (b : Commit)
    (hb : b.sha = B) (hpre : ∀ c ∈ pre, c.sha ≠ B) (hne : pre ≠ []) :
    diffStep (some B) (.ok (pre ++ b :: post)) =
      (some ((pre.head hne).sha), pre.reverse) := by
  cases pre with
  | nil => exact absurd rfl hne
  | cons c rest =>
    have hc : c.sha ≠ B := hpre c (List.mem_cons_self c rest)
    have hcol : collectNew B ((c :: rest) ++ b :: post) = c :: rest :=
      collectNew_append B (c :: rest) post b hb hpre
    simp only [List.cons_append, diffStep, List.head_cons, if_pos hc]
    rw [show c :: (rest ++ b :: post) = (c :: rest) ++ b :: post from rfl,
      hcol]

/-- C1 witness: baseline `"b"`, fetch `[r3, r2, r1, b, r0]` newest first
gives new revisions `[r1, r2, r3]` and stored sha `"r3"`. -/
theorem ordering_diff_witness :
    diffStep (some "b")
      (.ok [⟨"r3", "a", "m"⟩, ⟨"r2", "a", "m"⟩, ⟨"r1", "a", "m"⟩,
        ⟨"b", "a", "m"⟩, ⟨"r0", "a", "m"⟩]) =
      (some "r3",
        [⟨"r1", "a", "m"⟩, ⟨"r2", "a", "m"⟩, ⟨"r3", "a", "m"⟩]) := by
  have h := ordering_diff "b"
    [⟨"r3", "a", "m"⟩, ⟨"r2", "a", "m"⟩, ⟨"r1", "a", "m"⟩]
    [⟨"r0", "a", "m"⟩] ⟨"b", "a", "m"⟩ rfl (by decide) (by decide)
  simpa using h

/-- C3: lost-baseline fallback — if the stored baseline `B` occurs nowhere
in the non-empty fetched list, the whole list is treated as new (delivered
oldest first) and the stored sha becomes the newest fetched sha. -/
theorem lostBaseline_diff (B : String) (c : Commit) (rest : List Commit)
    (h : ∀ d ∈ c :: rest, d.sha ≠ B) :
    diffStep (some B) (.ok (c :: rest)) =
      (some c.sha, (c :: rest).reverse) := by
  have hc : c.sha ≠ B := h c (List.mem_cons_self c rest)
  simp only [diffStep, if_pos hc, collectNew_of_not_mem B (c :: rest) h]

/-- C3 witness: baseline `"b"`, fetch `[r2, r1]` gives new revisions
`[r1, r2]` and stored sha `"r2"`. -/
theorem lostBaseline_diff_witness :
    diffStep (some "b") (.ok [⟨"r2", "a", "m"⟩, ⟨"r1", "a", "m"⟩]) =
      (some "r2", [⟨"r1", "a", "m"⟩, ⟨"r2", "a", "m"⟩]) := by
  have h := lostBaseline_diff "b" ⟨"r2", "a", "m"⟩ [⟨"r1", "a", "m"⟩]
    (by decide)
  simpa using h

/-- C5: invariant — whenever a cycle changes the stored sha of a key that
already has one, the fetch was a non-empty list and the new stored value is
the sha of its newest record (index 0); the stored sha never moves to an
older position of the fetched history. -/
theorem baseline_no_regress (B : String) (fetch : FetchResult)
    (h : (diffStep (some B) fetch).1 ≠ some B) :
    ∃ c cs, fetch = .ok (c :: cs) ∧
      (diffStep (some B) fetch).1 = some c.sha := by
  match fetch with
  | .unavailable => exact absurd rfl h
  | .notAList => exact absurd rfl h
  | .ok [] => exact absurd rfl h
  | .ok (c :: cs) =>
    refine ⟨c, cs, rfl, ?_⟩
    by_cases hc : c.sha ≠ B
    · simp [diffStep, hc]
    · exact absurd (by simp [diffStep, hc]) h

/-- C5 witness at baseline `"a"` and fetch `[⟨"b"⟩]`. -/
theorem baseline_no_regress_witness :
    ∃ c cs, FetchResult.ok [(⟨"b", "x", "m"⟩ : Commit)] = .ok (c :: cs) ∧
      (diffStep (some "a") (.ok [⟨"b", "x", "m"⟩])).1 = some c.sha :=
  baseline_no_regress "a" (.ok [⟨"b", "x", "m"⟩]) (by decide)

/-- C6: whenever a cycle produces a non-empty set of new revisions, its
event trace is the state update (to the newest fetched sha) followed by the
notify events — the state is committed before any delivery begins. -/
theorem stateUpdate_before_notify (stored : Option String)
    (fetch : FetchResult) (h : (diffStep stored fetch).2 ≠ []) :
    ∃ sha, (diffStep stored fetch).1 = some sha ∧
      cycleTrace stored fetch =
        CycleEvent.stateUpdate sha ::
          ((diffStep stored fetch).2.map CycleEvent.notify) := by
  match fetch with
  | .unavailable => exact absurd rfl h
  | .notAList => exact absurd rfl h
  | .ok [] => exact absurd rfl h
  | .ok (c :: cs) =>
    match stored with
    | none => exact absurd rfl h
    | some lastSha =>
      by_cases hc : c.sha ≠ lastSha
      · exact ⟨c.sha, by simp [diffStep, hc],
          by simp [diffStep, cycleTrace, hc]⟩
      · exact absurd (by simp [diffStep, hc]) h

/-- C6 witness at stored `"a"` and fetch `[⟨"b"⟩]`. -/
theorem stateUpdate_before_notify_witness :
    ∃ sha, (diffStep (some "a") (.ok [⟨"b", "x", "m"⟩])).1 = some sha ∧
      cycleTrace (some "a") (.ok [⟨"b", "x", "m"⟩]) =
        CycleEvent.stateUpdate sha ::
          ((diffStep (some "a")
            (.ok [⟨"b", "x", "m"⟩])).2.map CycleEvent.notify) :=
  stateUpdate_before_notify (some "a") (.ok [⟨"b", "x", "m"⟩]) (by decide)

/-- C7: destination isolation — for every subscriber in the list whose
group id is non-empty and whose stream resolves, the base-message send is
attempted, whatever the delivery or resolution outcomes at every other
subscriber (the environment is arbitrary, so failures elsewhere cannot
suppress this attempt). -/
theorem destination_isolation (env : DispatchEnv) (c : Commit)
    (repoName : String) (subs : List Subscriber) (sub : Subscriber)
    (hmem : sub ∈ subs) (hg : sub.group_id ≠ "")
    (hres : ∃ sid, env.resolveStream sub.group_id sub.platform = some sid) :
    DispatchEvent.baseSend sub.group_id (renderBaseMsg c repoName) ∈
      broadcastTrace env c repoName subs := by
  obtain ⟨sid, hsid⟩ := hres
  rw [broadcastTrace_eq_flatMap]
  refine List.mem_flatMap.mpr ⟨sub, hmem, ?_⟩
  rw [processSub_resolved env (renderBaseMsg c repoName)
    (renderExtraContext c repoName) sub sid hg hsid]
  simp

/-- C7 witness: three destinations, delivery to the second one (stream
`"s2"`) raises; the first and the third base sends are still attempted. -/
theorem destination_isolation_witness :
    DispatchEvent.baseSend "g1" (renderBaseMsg ⟨"sha0", "a", "m"⟩ "repo") ∈
      broadcastTrace env7 ⟨"sha0", "a", "m"⟩ "repo"
        [⟨"g1", "qq"⟩, ⟨"g2", "qq"⟩, ⟨"g3", "qq"⟩] ∧
    DispatchEvent.baseSend "g3" (renderBaseMsg ⟨"sha0", "a", "m"⟩ "repo") ∈
      broadcastTrace env7 ⟨"sha0", "a", "m"⟩ "repo"
        [⟨"g1", "qq"⟩, ⟨"g2", "qq"⟩, ⟨"g3", "qq"⟩] :=
  ⟨destination_isolation env7 ⟨"sha0", "a", "m"⟩ "repo"
      [⟨"g1", "qq"⟩, ⟨"g2", "qq"⟩, ⟨"g3", "qq"⟩] ⟨"g1", "qq"⟩
      (by decide) (by decide) ⟨"s1", rfl⟩,
   destination_isolation env7 ⟨"sha0", "a", "m"⟩ "repo"
      [⟨"g1", "qq"⟩, ⟨"g2", "qq"⟩, ⟨"g3", "qq"⟩] ⟨"g3", "qq"⟩
      (by decide) (by decide) ⟨"s3", rfl⟩⟩

/-- C8, failing input: with the configuration holding
`global.enable_commentary = false` (the only commentary key the plugin's
config schema defines, lines 54-58), the dispatcher still attempts remark
generation — the `genError` event of the raising generator appears in the
trace — because line 248 reads the key `"monitor.enable_commentary"`,
which can never be set through the schema and so always falls back to the
default `True`. -/
theorem commentary_gate_wrong_key :
    getConfigBool cfgGlobalOff "global.enable_commentary" true = false ∧
    DispatchEvent.genError "g1" ∈
      broadcastTrace envGlobalOff ⟨"s0", "a", "m"⟩ "repo"
        [⟨"g1", "qq"⟩] := by
  exact ⟨rfl, by decide⟩

/-- C9, counterexample: a destination whose `group_id` is empty produces no
event at all — in particular no logged warning identifying it — because
lines 257-258 skip it with a bare `continue`. -/
theorem emptyGroup_no_warning :
    broadcastTrace envPlain ⟨"s0", "a", "m"⟩ "repo" [⟨"", "qq"⟩] = [] :=
  rfl

/-- C9, amended: a destination whose `group_id` is empty or missing is
skipped silently — removing it from the subscriber list leaves the whole
dispatch trace unchanged, so the remaining destinations are processed
exactly as before, but no warning is logged for the skipped one. -/
theorem emptyGroup_skipped_silently (env : DispatchEnv) (c : Commit)
    (repoName : String) (a b : List Subscriber) (sub : Subscriber)
    (hg : sub.group_id = "") :
    broadcastTrace env c repoName (a ++ sub :: b) =
      broadcastTrace env c repoName (a ++ b) := by
  have hsub : processSub env (renderBaseMsg c repoName)
      (renderExtraContext c repoName) sub = [] := by
    unfold processSub
    rw [if_pos hg]
  rw [broadcastTrace_eq_flatMap, broadcastTrace_eq_flatMap,
    List.flatMap_append, List.flatMap_append, List.flatMap_cons, hsub]
  simp

/-- C9 witness for the amended claim: dropping the empty-group destination
between `g1` and `g3` does not change the trace. -/
theorem emptyGroup_skipped_silently_witness :
    broadcastTrace envPlain ⟨"s0", "a", "m"⟩ "repo"
        [⟨"g1", "qq"⟩, ⟨"", "qq"⟩, ⟨"g3", "qq"⟩] =
      broadcastTrace envPlain ⟨"s0", "a", "m"⟩ "repo"
        [⟨"g1", "qq"⟩, ⟨"g3", "qq"⟩] :=
  emptyGroup_skipped_silently envPlain ⟨"s0", "a", "m"⟩ "repo"
    [⟨"g1", "qq"⟩] [⟨"g3", "qq"⟩] ⟨"", "qq"⟩ rfl

/-- C10: for a destination with a resolvable stream, the base message is
always the first attempted event, and a second (commentary) message is
attempted exactly when the commentary flag is on and the generator returned
success with a truthy, non-empty remark — so a raising, failing or
empty-remark generation sends no second message. -/
theorem commentary_second_message (env : DispatchEnv) (baseMsg ctx : String)
    (sub : Subscriber) (sid : String) (hg : sub.group_id ≠ "")
    (hres : env.resolveStream sub.group_id sub.platform = some sid) :
    (processSub env baseMsg ctx sub).head? =
      some (DispatchEvent.baseSend sub.group_id baseMsg) ∧
    ((∃ t, DispatchEvent.commentSend sub.group_id t ∈
        processSub env baseMsg ctx sub) ↔
      (getConfigBool env.cfg "monitor.enable_commentary" true = true ∧
        ∃ t, t ≠ "" ∧ env.gen sid ctx = .returns true (some t))) := by
  rw [processSub_resolved env baseMsg ctx sub sid hg hres]
  constructor
  · simp
  · rw [← aiComment_ne_iff env sub.group_id sid ctx]
    by_cases hai : (aiCommentStep env sub.group_id sid ctx).1 = ""
    · have hcond : ¬((aiCommentStep env sub.group_id sid ctx).1 ≠ "") := by
        simpa using hai
      rw [if_neg hcond, List.append_nil]
      constructor
      · rintro ⟨t, ht⟩
        exfalso
        rcases List.mem_append.mp ht with h | h
        · rcases List.mem_cons.mp h with h | h
          · cases h
          · revert h
            split <;> simp
        · rcases aiCommentStep_snd_cases env sub.group_id sid ctx with
            hc | hc <;> rw [hc] at h <;> simp at h
      · intro hne
        exact absurd hai hne
    · rw [if_pos hai]
      refine iff_of_true
        ⟨(aiCommentStep env sub.group_id sid ctx).1, ?_⟩ hai
      exact List.mem_append.mpr (Or.inr (List.mem_cons_self _ _))

/-- C10 witness: enabled commentary with a raising generator — the base
send is first and no comment send occurs (the right side of the
equivalence is false for a raising generator). -/
theorem commentary_second_message_witness :
    (processSub envGenRaises "base" "ctx" ⟨"g1", "qq"⟩).head? =
      some (DispatchEvent.baseSend "g1" "base") ∧
    ((∃ t, DispatchEvent.commentSend "g1" t ∈
        processSub envGenRaises "base" "ctx" ⟨"g1", "qq"⟩) ↔
      (getConfigBool envGenRaises.cfg "monitor.enable_commentary" true
          = true ∧
        ∃ t, t ≠ "" ∧
          envGenRaises.gen "s1" "ctx" = .returns true (some t))) :=
  commentary_second_message envGenRaises "base" "ctx" ⟨"g1", "qq"⟩ "s1"
    (by decide) rfl
